import Mathlib

/-!
Verification development for the SamFetch firmware proxy.

The definitions below are a shallow embedding of the two source files
`samfetch/kies.py` and `web/routes.py`.  Python strings are modelled as
`String` / `List Char`; Python exceptions are modelled with `Except`;
the web routes that perform network I/O are modelled as functions of the
remote server's responses which also return the ordered trace of network
requests they issue.
-/

instance {ε α : Type} [DecidableEq ε] [DecidableEq α] : DecidableEq (Except ε α) :=
  fun a b =>
    match a, b with
    | .error x, .error y =>
      if h : x = y then .isTrue (h ▸ rfl)
      else .isFalse (fun hh => h (Except.error.inj hh))
    | .ok x, .ok y =>
      if h : x = y then .isTrue (h ▸ rfl)
      else .isFalse (fun hh => h (Except.ok.inj hh))
    | .error _, .ok _ => .isFalse (fun hh => Except.noConfusion hh)
    | .ok _, .error _ => .isFalse (fun hh => Except.noConfusion hh)

/-- Python exception classes that the modelled code can raise. -/
inductive PyError
  | valueError (msg : String)
  | indexError
  | keyError
  | typeError
  deriving DecidableEq

/-- Whitespace characters stripped by Python's `str.strip()`. -/
def pyIsSpace (c : Char) : Bool :=
  c == ' ' || c == '\t' || c == '\n' || c == '\r' || c == '\x0b' || c == '\x0c'

/-- Python `str.strip()` on the character list of a string. -/
def pyStrip (l : List Char) : List Char :=
  ((l.dropWhile pyIsSpace).reverse.dropWhile pyIsSpace).reverse

/-- Python `str.split(sep)` (no maxsplit) on the character list of a string.
`pySplit sep [] = [[]]`, matching `"".split(sep) == [""]`. -/
def pySplit (sep : Char) : List Char → List (List Char)
  | [] => [[]]
  | c :: r =>
    if c = sep then [] :: pySplit sep r
    else
      match pySplit sep r with
      | [] => [[c]]
      | a :: as => (c :: a) :: as

/-- Python `s[-n:]`: the last `n` characters (all of them when `n ≥ length`). -/
def lastN (n : Nat) (l : List Char) : List Char :=
  l.drop (l.length - n)

/-- Python `str.removeprefix` on character lists. -/
def removePrefixL (p l : List Char) : List Char :=
  if p.isPrefixOf l then l.drop p.length else l

/-- Python `s.split("-", maxsplit=1)` restricted to the interesting shape:
`some (before, after)` when a `'-'` occurs, `none` otherwise. -/
def splitOnceDash : List Char → Option (List Char × List Char)
  | [] => none
  | c :: r =>
    if c = '-' then some ([], r)
    else (splitOnceDash r).map (fun p => (c :: p.1, p.2))

/-- Decimal digit run to a number; `none` when empty or a non-digit occurs. -/
def digitsToNat? (l : List Char) : Option Nat :=
  if l = [] then none
  else if l.all (·.isDigit) then
    some (l.foldl (fun n c => 10 * n + (c.toNat - 48)) 0)
  else none

/-- Python `int(str)`: strips whitespace, allows one leading sign, requires a
nonempty digit run, raises `ValueError` otherwise. -/
def pyInt (l : List Char) : Except PyError Int :=
  let t := pyStrip l
  let sgn : Int := if t.headD ' ' = '-' then -1 else 1
  let mag := if t.headD ' ' = '-' ∨ t.headD ' ' = '+' then t.tail else t
  match digitsToNat? mag with
  | some n => .ok (sgn * n)
  | none => .error (.valueError "invalid literal for int() with base 10")

/-- `KiesUtils.parse_firmware` (kies.py lines 240-249).
An empty input raises `ValueError`; a 3-component input gets the first
component appended; an empty third component is replaced by the first;
reading `l[2]` of a shorter list raises `IndexError`. -/
def parse_firmware (s : String) : Except PyError String :=
  if s.data = [] then .error (.valueError "Invalid firmware format.")
  else
    let l := pySplit '/' s.data
    let l1 := if l.length = 3 then l ++ [l.headD []] else l
    match l1[2]? with
    | none => .error .indexError
    | some c =>
      .ok ⟨List.intercalate ['/'] (if c = [] then l1.set 2 (l1.headD []) else l1)⟩

/-- `KiesUtils.parse_range_header` (kies.py lines 251-256). -/
def parse_range_header (header : String) : Except PyError (Int × Int) :=
  let ran := removePrefixL "bytes=".data (pyStrip header.data)
  match splitOnceDash ran with
  | none => .ok (-1, -1)
  | some (a, b) =>
    match pyInt (if a = [] then ['0'] else a) with
    | .error e => .error e
    | .ok sv =>
      match pyInt (if b = [] then ['0'] else b) with
      | .error e => .error e
      | .ok ev => .ok (sv, ev)

/-- `string.digits + string.ascii_uppercase`, the alphabet used for the
revision index in `KiesUtils.read_firmware`. -/
def ALPHANUM : List Char := "0123456789ABCDEFGHIJKLMNOPQRSTUVWXYZ".data

/-- Python `s[i]` for `i ≥ 0`: `IndexError` out of bounds. -/
def pyIndexAt (l : List Char) (i : Nat) : Except PyError Char :=
  match l[i]? with
  | some c => .ok c
  | none => .error .indexError

/-- Python `s[-i]` for `i ≥ 1`: `IndexError` when `i > length`. -/
def pyIndexNeg (l : List Char) (i : Nat) : Except PyError Char :=
  if i = 0 ∨ l.length < i then .error .indexError
  else pyIndexAt l (l.length - i)

/-- Python `str.index`: position of the first occurrence, `ValueError` when
absent. -/
def pyStrIndex (l : List Char) (c : Char) : Except PyError Int :=
  match l.findIdx? (· == c) with
  | some n => .ok n
  | none => .error (.valueError "substring not found")

/-- The decoded build information `[bl, it, year, month, rev]` returned by
`KiesUtils.read_firmware` as a Python 5-element list. -/
structure BuildInfo where
  bl : Option String
  it : Option Int
  year : Int
  month : Int
  rev : Int
  deriving DecidableEq

/-- The per-branch decoding of the 6-character PDA code inside
`KiesUtils.read_firmware` (kies.py lines 270-281). -/
def decode_pda (pda : List Char) : Except PyError BuildInfo :=
  match pyIndexAt pda 0 with
  | .error e => .error e
  | .ok c0 =>
    if c0 = 'U' ∨ c0 = 'S' then
      match pyIndexAt pda 2 with
      | .error e => .error e
      | .ok p2 =>
      match pyIndexAt pda 3 with
      | .error e => .error e
      | .ok p3 =>
      match pyIndexAt pda 4 with
      | .error e => .error e
      | .ok p4 =>
      match pyIndexAt pda 5 with
      | .error e => .error e
      | .ok p5 =>
      match pyStrIndex ALPHANUM p5 with
      | .error e => .error e
      | .ok r =>
        .ok ⟨some ⟨pda.take 2⟩, some ((p2.toNat : Int) - ('A'.toNat : Int)),
             ((p3.toNat : Int) - ('R'.toNat : Int)) + 2018,
             (p4.toNat : Int) - ('A'.toNat : Int), r⟩
    else
      match pyIndexNeg pda 3 with
      | .error e => .error e
      | .ok d3 =>
      match pyIndexNeg pda 2 with
      | .error e => .error e
      | .ok d2 =>
      match pyIndexNeg pda 1 with
      | .error e => .error e
      | .ok d1 =>
      match pyStrIndex ALPHANUM d1 with
      | .error e => .error e
      | .ok r =>
        .ok ⟨none, none,
             ((d3.toNat : Int) - ('R'.toNat : Int)) + 2018,
             (d2.toNat : Int) - ('A'.toNat : Int), r⟩

/-- `KiesUtils.read_firmware` (kies.py lines 266-282): requires exactly three
`'/'` and decodes the last 6 characters of the first component. -/
def read_firmware (s : String) : Except PyError BuildInfo :=
  if s.data.count '/' = 3 then
    decode_pda (lastN 6 ((pySplit '/' s.data).headD []))
  else .error (.valueError "Invalid firmware format.")

/-- Python `str(x)` of an `Optional[int]` (prints `None` for `None`). -/
def optIntStr : Option Int → String
  | none => "None"
  | some n => toString n

/-- The `{"bl", "date", "it"}` dictionary built by
`KiesUtils.read_firmware_dict` (kies.py lines 284-291). -/
structure PdaDict where
  bl : Option String
  date : String
  it : String
  deriving DecidableEq

/-- `KiesUtils.read_firmware_dict`. -/
def read_firmware_dict (s : String) : Except PyError PdaDict :=
  match read_firmware s with
  | .error e => .error e
  | .ok ff =>
    .ok ⟨ff.bl, toString ff.year ++ "." ++ toString ff.month,
         optIntStr ff.it ++ "." ++ toString ff.rev⟩

/-- Error-or-result of a list comprehension / loop body applied in order,
stopping at the first raised exception (Python evaluation order). -/
def mapE {α β ε : Type} (f : α → Except ε β) : List α → Except ε (List β)
  | [] => .ok []
  | a :: l =>
    match f a with
    | .error e => .error e
    | .ok b =>
      match mapE f l with
      | .error e => .error e
      | .ok bs => .ok (b :: bs)

/-- Shape of the parsed `versioninfo…latest` XML node: absent, a plain
string, a dict carrying `#text`, or some other node kind. -/
inductive LatestVal
  | missing
  | text (t : String)
  | tagged (t : String)
  | otherNode
  deriving DecidableEq

/-- Shape of the parsed `versioninfo…upgrade.value` XML node: the `upgrade`
key absent entirely, a null value, a single `#text` dict, or a list of
`#text` dicts. -/
inductive UpgradeVal
  | missingKey
  | null
  | single (t : String)
  | multi (ts : List String)
  deriving DecidableEq

/-- The parsed firmware manifest held by `KiesFirmwareList`:
`hasVersions` is whether the `versioninfo` key exists (`_versions != None`). -/
structure Manifest where
  hasVersions : Bool
  latest : LatestVal
  upgrade : UpgradeVal

/-- `KiesFirmwareList.latest` (kies.py lines 49-57); only meaningful when
`hasVersions` (the route checks `exists` first, which short-circuits). -/
def latestF (m : Manifest) : Except PyError (Option String) :=
  match m.latest with
  | .missing => .ok none
  | .text t => (parse_firmware t).map some
  | .tagged t => (parse_firmware t).map some
  | .otherNode => .ok none

/-- `KiesFirmwareList.alternate` (kies.py lines 59-68): entries with at most
one `'/'` are dropped, the rest go through `parse_firmware` in order. -/
def alternateF (m : Manifest) : Except PyError (List String) :=
  if ¬ m.hasVersions then .error .typeError
  else
    match m.upgrade with
    | .missingKey => .error .keyError
    | .null => .ok []
    | .multi ts => mapE parse_firmware (ts.filter (fun t => 1 < t.data.count '/'))
    | .single t =>
      if 1 < t.data.count '/' then (parse_firmware t).map (fun r => [r])
      else .ok []

/-- The raw alternate texts carried by the manifest, before filtering. -/
def rawUpgrades (m : Manifest) : List String :=
  match m.upgrade with
  | .multi ts => ts
  | .single t => [t]
  | _ => []

/-- Error responses raised by the route layer (`web/exceptions.make_error`
calls in routes.py, plus uncaught Python exceptions). -/
inductive RouteError
  | deviceNotFound (code : Nat)
  | firmwareListEmpty (code : Nat)
  | firmwareCantParse (code : Nat)
  | unauthorized (code : Nat)
  | unknownError (code : Nat)
  | maxRetryExceeded (code : Nat)
  | kiesServerError (code : Nat)
  | kiesServerOuterError (code : Nat)
  | rangeHeaderInvalid (code : Nat)
  | pyExc (e : PyError)
  deriving DecidableEq

/-- Network requests the routes issue, in order. -/
inductive Ev
  | nonceReq
  | binaryInfoReq
  | fileRegReq
  | rangedDownloadReq
  deriving DecidableEq

/-- One entry of the JSON list built by the `get_firmware_list` route
(routes.py lines 39-48): firmware string, the `is_latest` tag (present only
for index 0) and the decoded `pda` dict. -/
structure FirmwareEntry where
  firmware : String
  is_latest : Bool
  pda : PdaDict
  deriving DecidableEq

/-- The `get_firmware_list` route (routes.py lines 20-54) as a function of
the manifest response: HTTP status of the version.xml fetch plus the parsed
manifest.  Mirrors the route's order: non-200 fetch fails, then the
`firmwares.exists` check (which evaluates `latest`), then the enumerate
loop over `[latest] + alternate` decorating index 0 with `is_latest`. -/
def get_firmware_list (listHttp : Nat) (m : Manifest) :
    Except RouteError (List FirmwareEntry) :=
  if listHttp ≠ 200 then .error (.deviceNotFound listHttp)
  else if ¬ m.hasVersions then .error (.firmwareListEmpty 404)
  else
    match latestF m with
    | .error e => .error (.pyExc e)
    | .ok none => .error (.firmwareCantParse 404)
    | .ok (some lat) =>
      match alternateF m with
      | .error e => .error (.pyExc e)
      | .ok alts =>
        match mapE (fun p => (read_firmware_dict p.2).map
            (fun d => FirmwareEntry.mk p.2 (p.1 == 0) d)) (lat :: alts).enum with
        | .error e => .error (.pyExc e)
        | .ok entries => .ok entries

/-- The attempt loop of the `get_binary_details` route (routes.py lines
116-156), as a function of the FUS status code each attempt's binary-info
response carries.  Every iteration first acquires a fresh nonce session and
then posts the binary-info request; the returned trace records both.
`ok (some a)` models the break with attempt `a`'s parsed response,
`ok none` models falling off the end of `range(1, 6)`. -/
def binary_attempts (resp : Nat → Nat) : Nat → Nat → List Ev × Except RouteError (Option Nat)
  | _, 0 => ([], .ok none)
  | a, fuel + 1 =>
    let s := resp a
    if s = 200 then ([.nonceReq, .binaryInfoReq], .ok (some a))
    else if s = 408 then
      let r := binary_attempts resp (a + 1) fuel
      ([.nonceReq, .binaryInfoReq] ++ r.1, r.2)
    else if s = 401 then ([.nonceReq, .binaryInfoReq], .error (.unauthorized 401))
    else ([.nonceReq, .binaryInfoReq], .error (.unknownError s))

/-- The `get_binary_details` route around the loop (routes.py lines 159-212):
a final status of 200 returns the metadata parsed from the successful
attempt's response (modelled by that attempt's number), anything else raises
`MAX_RETRY_EXCEEDED` with HTTP 500. -/
def get_binary_details (resp : Nat → Nat) : List Ev × Except RouteError Nat :=
  let r := binary_attempts resp 1 5
  (r.1,
    match r.2 with
    | .error e => .error e
    | .ok (some a) => .ok a
    | .ok none => .error (.maxRetryExceeded 500))

/-- The remote statuses the `download_binary` route observes: HTTP status of
the file-registration response, the FUS status inside it, and HTTP status of
the ranged download response. -/
structure DownloadEnv where
  regHttp : Nat
  regKies : Nat
  dlHttp : Nat
  deriving DecidableEq

/-- The range check of routes.py line 251. -/
def range_invalid (decrypt : Bool) (s e : Int) : Bool :=
  s == -1 || e == -1 || (decrypt && !(e == 0))

/-- The `download_binary` route (routes.py lines 214-300) as a function of
the decrypt flag, the optional `Range` header and the remote statuses,
returning the ordered request trace and the outcome.  The code first sends
the nonce request and the file-registration request; only inside the
successful branch does it parse and validate the `Range` header, then issue
the ranged download.  `ok ()` models a streamed response (the code's final
unconditional `raise` occurs after the response has already streamed). -/
def download_binary (decrypt : Bool) (rangeHeader : Option String)
    (env : DownloadEnv) : List Ev × Except RouteError Unit :=
  let tr := [Ev.nonceReq, Ev.fileRegReq]
  if env.regHttp = 200 then
    if env.regKies ≠ 200 then (tr, .error (.kiesServerError env.regKies))
    else
      match parse_range_header (rangeHeader.getD "bytes=0-") with
      | .error e => (tr, .error (.pyExc e))
      | .ok (s, e) =>
        if range_invalid decrypt s e then (tr, .error (.rangeHeaderInvalid 416))
        else if env.dlHttp = 200 ∨ env.dlHttp = 206 then
          (tr ++ [.rangedDownloadReq], .ok ())
        else (tr ++ [.rangedDownloadReq], .error (.kiesServerError env.dlHttp))
  else (tr, .error (.kiesServerOuterError env.regHttp))

/-! ### Helper lemmas about the string primitives -/

theorem mem_pyStrip {c : Char} {l : List Char} (h : c ∈ pyStrip l) : c ∈ l := by
  unfold pyStrip at h
  rw [List.mem_reverse] at h
  replace h := (List.dropWhile_sublist _).subset h
  rw [List.mem_reverse] at h
  exact (List.dropWhile_sublist _).subset h

theorem mem_removePrefixL {c : Char} {p l : List Char}
    (h : c ∈ removePrefixL p l) : c ∈ l := by
  unfold removePrefixL at h
  split at h
  · exact (List.drop_sublist _ _).subset h
  · exact h

theorem splitOnceDash_eq_none {l : List Char} (h : ¬ '-' ∈ l) :
    splitOnceDash l = none := by
  induction l with
  | nil => rfl
  | cons c r ih =>
    have hc : ¬ c = '-' := by
      intro hh
      exact h (by simp [hh])
    simp [splitOnceDash, hc, ih (fun hm => h (List.mem_cons_of_mem _ hm))]

theorem splitOnceDash_fst {l a b : List Char}
    (h : splitOnceDash l = some (a, b)) : ¬ '-' ∈ a := by
  induction l generalizing a b with
  | nil => simp [splitOnceDash] at h
  | cons c r ih =>
    simp only [splitOnceDash] at h
    by_cases hc : c = '-'
    · rw [if_pos hc] at h
      injection h with h2
      injection h2 with h3 h4
      subst h3
      intro hm
      simp at hm
    · rw [if_neg hc] at h
      rcases Option.map_eq_some'.mp h with ⟨⟨a', b'⟩, hr, hab⟩
      injection hab with h3 h4
      subst h3
      intro hm
      rcases List.mem_cons.mp hm with h1 | h1
      · exact hc h1.symm
      · exact ih hr h1

theorem pyInt_ok_nonneg {l : List Char} (hd : ¬ '-' ∈ l) {v : Int}
    (hv : pyInt l = .ok v) : 0 ≤ v := by
  have hd' : ¬ '-' ∈ pyStrip l := fun hm => hd (mem_pyStrip hm)
  have hh : (pyStrip l).headD ' ' ≠ '-' := by
    cases hst : pyStrip l with
    | nil => simp
    | cons c r =>
      simp only [List.headD_cons]
      intro hc
      exact hd' (by rw [hst, hc]; exact List.mem_cons_self _ _)
  simp only [pyInt, if_neg hh] at hv
  cases hm : digitsToNat?
      (if (pyStrip l).headD ' ' = '-' ∨ (pyStrip l).headD ' ' = '+'
       then (pyStrip l).tail else pyStrip l) with
  | none => rw [hm] at hv; simp at hv
  | some n =>
    rw [hm] at hv
    have := Except.ok.inj hv
    rw [← this]
    simp

/-! ### Claim theorems: range header parsing (C8, C9, C10) -/

/-- Claim C8: `parse_range_header "bytes=0-100"` returns `(0, 100)`,
`parse_range_header "bytes=50-"` returns `(50, 0)`, and every header string
with no `'-'` separator returns the `(-1, -1)` invalid marker. -/
theorem spec_c8_range_header_parsing :
    parse_range_header "bytes=0-100" = .ok (0, 100) ∧
    parse_range_header "bytes=50-" = .ok (50, 0) ∧
    ∀ s : String, ¬ '-' ∈ s.data → parse_range_header s = .ok (-1, -1) := by
  refine ⟨by decide, by decide, ?_⟩
  intro s hs
  have h1 : ¬ '-' ∈ pyStrip s.data := fun hm => hs (mem_pyStrip hm)
  have h2 : ¬ '-' ∈ removePrefixL "bytes=".data (pyStrip s.data) :=
    fun hm => h1 (mem_removePrefixL hm)
  simp only [parse_range_header, splitOnceDash_eq_none h2]

/-- Witness for C8 at a concrete separator-free header. -/
theorem spec_c8_witness : parse_range_header "0100" = .ok (-1, -1) :=
  spec_c8_range_header_parsing.2.2 "0100" (by decide)

/-- Claim C9: `parse_range_header` is not total: `"bytes=a-b"` (separator
present, non-numeric bound) raises an uncaught `ValueError` from the int
conversion, while the `(-1, -1)` marker is produced only when the separator
is missing from the processed header. -/
theorem spec_c9_partiality :
    parse_range_header "bytes=a-b" =
      .error (.valueError "invalid literal for int() with base 10") ∧
    ∀ (s : String) (p : Int × Int), parse_range_header s = .ok p →
      p = (-1, -1) →
      splitOnceDash (removePrefixL "bytes=".data (pyStrip s.data)) = none := by
  refine ⟨by decide, ?_⟩
  intro s p hok hp
  cases hsp : splitOnceDash (removePrefixL "bytes=".data (pyStrip s.data)) with
  | none => rfl
  | some ab =>
    obtain ⟨a, b⟩ := ab
    exfalso
    simp only [parse_range_header, hsp] at hok
    cases hsv : pyInt (if a = [] then ['0'] else a) with
    | error e => rw [hsv] at hok; simp at hok
    | ok sv =>
      rw [hsv] at hok
      cases hev : pyInt (if b = [] then ['0'] else b) with
      | error e => rw [hev] at hok; simp at hok
      | ok ev =>
        rw [hev] at hok
        have hpp : sv = -1 := by
          have := Except.ok.inj hok
          rw [hp] at this
          exact (Prod.mk.injEq .. ▸ this).1
        have hnd : ¬ '-' ∈ (if a = [] then ['0'] else a) := by
          split
          · decide
          · exact splitOnceDash_fst hsp
        have := pyInt_ok_nonneg hnd hsv
        omega

/-- Witness for C9's only-if direction at a concrete separator-free header. -/
theorem spec_c9_witness :
    splitOnceDash (removePrefixL "bytes=".data (pyStrip "junk".data)) = none :=
  spec_c9_partiality.2 "junk" (-1, -1) (by decide) rfl

/-- Claim C10: an empty bound on either side of `'-'` is returned as 0, so
`"bytes=-100"` yields `(0, 100)` and `"bytes=-"` yields `(0, 0)`; hence
`"bytes=0-0"` parses identically to the open-ended `"bytes=0-"`, passes the
decryption range check, and `download_binary` proceeds to the ranged
download exactly as for the open-ended header. -/
theorem spec_c10_zero_end_validation :
    parse_range_header "bytes=-100" = .ok (0, 100) ∧
    parse_range_header "bytes=-" = .ok (0, 0) ∧
    parse_range_header "bytes=0-0" = .ok (0, 0) ∧
    parse_range_header "bytes=0-" = .ok (0, 0) ∧
    range_invalid true 0 0 = false ∧
    download_binary true (some "bytes=0-0") ⟨200, 200, 200⟩ =
      ([.nonceReq, .fileRegReq, .rangedDownloadReq], .ok ()) ∧
    download_binary true (some "bytes=0-0") ⟨200, 200, 200⟩ =
      download_binary true (some "bytes=0-") ⟨200, 200, 200⟩ := by
  refine ⟨by decide, by decide, by decide, by decide, by decide, by decide, by decide⟩

/-! ### Claim theorems: firmware normalization (C3, C4) -/

/-- Counterexample for C3: the third component of `"A/B/ "` is a single
space, which is not the empty string, so `parse_firmware` leaves it alone
and returns `"A/B/ /A"`, not the claimed `"A/B/A/A"`. -/
theorem spec_c3_counterexample :
    parse_firmware "A/B/ " = .ok "A/B/ /A" ∧
    parse_firmware "A/B/ " ≠ .ok "A/B/A/A" := by
  refine ⟨by decide, by decide⟩

/-- Claim C3 (amended): for every input splitting into exactly 3 components
the 4th component is set equal to the 1st, and an *empty* (not blank) 3rd
component is replaced by the 1st. -/
theorem spec_c3_normalization (s : String) (a b c : List Char)
    (h : pySplit '/' s.data = [a, b, c]) :
    parse_firmware s =
      .ok ⟨List.intercalate ['/'] [a, b, if c = [] then a else c, a]⟩ := by
  have hne : s.data ≠ [] := by
    intro h0
    rw [h0] at h
    simp [pySplit] at h
  simp only [parse_firmware, if_neg hne, h]
  by_cases hc : c = [] <;>
    simp [hc, List.set]

/-- Witness for C3 at the concrete 3-component input `"A/B/"` (whose third
component is genuinely empty): the result is `"A/B/A/A"`. -/
theorem spec_c3_witness : parse_firmware "A/B/" = .ok "A/B/A/A" := by
  have h := spec_c3_normalization "A/B/" ['A'] ['B'] [] (by decide)
  simpa using h

/-- Counterexample for C4: a 5-component firmware string is returned joined
back unchanged instead of raising any validation failure. -/
theorem spec_c4_counterexample :
    (pySplit '/' "A/B/C/D/E".data).length = 5 ∧
    parse_firmware "A/B/C/D/E" = .ok "A/B/C/D/E" := by
  refine ⟨by decide, by decide⟩

/-- Claim C4 (amended): a nonempty string with fewer than 3 components
raises an `IndexError` when `l[2]` is read; the
`ValueError("Invalid firmware format.")` validation failure is raised
exactly for the empty string (any `ValueError` outcome implies the input
was empty); and a string with 5 or more components does not fail at all —
it is returned re-joined, with an empty 3rd component still replaced by the
1st component and every other component unchanged. -/
theorem spec_c4_component_count (s : String) :
    ((pySplit '/' s.data).length < 3 →
      parse_firmware s =
        .error (if s.data = [] then PyError.valueError "Invalid firmware format."
                else PyError.indexError)) ∧
    (∀ msg, parse_firmware s = .error (.valueError msg) → s.data = []) ∧
    (∀ (a b c : List Char) (rest : List (List Char)),
      pySplit '/' s.data = a :: b :: c :: rest → 2 ≤ rest.length →
      parse_firmware s =
        .ok ⟨List.intercalate ['/'] (a :: b :: (if c = [] then a else c) :: rest)⟩) := by
  refine ⟨?_, ?_, ?_⟩
  · intro hlen
    by_cases hnil : s.data = []
    · simp [parse_firmware, hnil]
    · have h3 : ¬ (pySplit '/' s.data).length = 3 := by omega
      have hnone : (pySplit '/' s.data)[2]? = none :=
        List.getElem?_eq_none (by omega)
      simp [parse_firmware, hnil, if_neg h3, hnone]
  · intro msg h
    by_cases hnil : s.data = []
    · exact hnil
    · exfalso
      simp only [parse_firmware, if_neg hnil] at h
      split at h
      · exact absurd h (by simp)
      · exact absurd h (by simp)
  · intro a b c rest hsp hlen
    have hnil : s.data ≠ [] := by
      intro h0
      rw [h0] at hsp
      simp [pySplit] at hsp
    have h3 : ¬ (pySplit '/' s.data).length = 3 := by
      rw [hsp]
      simp only [List.length_cons]
      omega
    simp only [parse_firmware]
    rw [if_neg hnil, if_neg h3, hsp]
    simp only [List.getElem?_cons_succ, List.getElem?_cons_zero]
    by_cases hc : c = []
    · simp [hc, List.set]
    · simp [hc]

/-- Witness for C4 (amended) at concrete inputs: 2 components, the empty
string, and two 5-component strings (non-empty and empty 3rd component). -/
theorem spec_c4_witness :
    parse_firmware "A/B" = .error PyError.indexError ∧
    parse_firmware "" = .error (PyError.valueError "Invalid firmware format.") ∧
    ("".data : List Char) = [] ∧
    parse_firmware "A/B/C/D/E" = .ok "A/B/C/D/E" ∧
    parse_firmware "A/B//D/E" = .ok "A/B/A/D/E" := by
  refine ⟨?_, ?_, ?_, ?_, ?_⟩
  · have h := (spec_c4_component_count "A/B").1 (by decide)
    simpa using h
  · have h := (spec_c4_component_count "").1 (by decide)
    simpa using h
  · exact (spec_c4_component_count "").2.1 "Invalid firmware format." (by decide)
  · have h := (spec_c4_component_count "A/B/C/D/E").2.2
      ['A'] ['B'] ['C'] [['D'], ['E']] (by decide) (by decide)
    simpa using h
  · have h := (spec_c4_component_count "A/B//D/E").2.2
      ['A'] ['B'] [] [['D'], ['E']] (by decide) (by decide)
    simpa using h

/-! ### Claim theorems: binary-info retry loop (C2, C5) -/

theorem binary_attempts_trace_ne_nil (resp : Nat → Nat) (a fuel : Nat)
    (h : 1 ≤ fuel) : (binary_attempts resp a fuel).1 ≠ [] := by
  cases fuel with
  | zero => omega
  | succ f =>
    simp only [binary_attempts]
    split
    · simp
    · split
      · simp
      · split <;> simp

/-- Claim C2: when every attempt's binary-info response carries status 408,
the retriever performs exactly 5 attempts — each issuing a fresh nonce
request followed by a binary-info request — and then fails with
`MAX_RETRY_EXCEEDED`; when the first attempt carries 200, exactly one
attempt occurs and its parsed metadata is returned. -/
theorem spec_c2_retry_termination :
    (∀ resp : Nat → Nat, (∀ i, resp i = 408) →
      get_binary_details resp =
        ([.nonceReq, .binaryInfoReq, .nonceReq, .binaryInfoReq,
          .nonceReq, .binaryInfoReq, .nonceReq, .binaryInfoReq,
          .nonceReq, .binaryInfoReq],
         .error (.maxRetryExceeded 500))) ∧
    (∀ resp : Nat → Nat, resp 1 = 200 →
      get_binary_details resp = ([.nonceReq, .binaryInfoReq], .ok 1)) := by
  constructor
  · intro resp h
    simp [get_binary_details, binary_attempts, h]
  · intro resp h
    simp [get_binary_details, binary_attempts, h]

/-- Witness for C2 at the constant-408 and constant-200 servers. -/
theorem spec_c2_witness :
    get_binary_details (fun _ => 408) =
      ([.nonceReq, .binaryInfoReq, .nonceReq, .binaryInfoReq,
        .nonceReq, .binaryInfoReq, .nonceReq, .binaryInfoReq,
        .nonceReq, .binaryInfoReq],
       .error (.maxRetryExceeded 500)) ∧
    get_binary_details (fun _ => 200) = ([.nonceReq, .binaryInfoReq], .ok 1) :=
  ⟨spec_c2_retry_termination.1 _ (fun _ => rfl),
   spec_c2_retry_termination.2 _ rfl⟩

/-- Claim C5: per-attempt status dispatch inside the retry loop.  200 stops
with that attempt's metadata after a single attempt; 408 continues to the
next attempt (when attempts remain, a further attempt with its own requests
occurs); 401 fails immediately with `UNAUTHORIZED`; any other status fails
immediately with `UNKNOWN_ERROR` carrying the code — the latter two after a
single attempt. -/
theorem spec_c5_status_dispatch (resp : Nat → Nat) (a fuel : Nat) :
    (resp a = 200 →
      binary_attempts resp a (fuel + 1) =
        ([.nonceReq, .binaryInfoReq], .ok (some a))) ∧
    (resp a = 408 →
      binary_attempts resp a (fuel + 1) =
        ([.nonceReq, .binaryInfoReq] ++ (binary_attempts resp (a + 1) fuel).1,
         (binary_attempts resp (a + 1) fuel).2) ∧
      (1 ≤ fuel → (binary_attempts resp (a + 1) fuel).1 ≠ [])) ∧
    (resp a = 401 →
      binary_attempts resp a (fuel + 1) =
        ([.nonceReq, .binaryInfoReq], .error (.unauthorized 401))) ∧
    (resp a ≠ 200 → resp a ≠ 408 → resp a ≠ 401 →
      binary_attempts resp a (fuel + 1) =
        ([.nonceReq, .binaryInfoReq], .error (.unknownError (resp a)))) := by
  refine ⟨fun h => ?_, fun h => ⟨?_, fun hf => ?_⟩, fun h => ?_,
          fun h1 h2 h3 => ?_⟩
  · simp [binary_attempts, h]
  · simp [binary_attempts, h]
  · exact binary_attempts_trace_ne_nil resp (a + 1) fuel hf
  · simp [binary_attempts, h]
  · simp [binary_attempts, h1, h2, h3]

/-- Witness for C5 at concrete servers for each of the four statuses. -/
theorem spec_c5_witness :
    binary_attempts (fun _ => 200) 1 5 =
      ([.nonceReq, .binaryInfoReq], .ok (some 1)) ∧
    binary_attempts (fun _ => 401) 1 5 =
      ([.nonceReq, .binaryInfoReq], .error (.unauthorized 401)) ∧
    binary_attempts (fun _ => 500) 1 5 =
      ([.nonceReq, .binaryInfoReq], .error (.unknownError 500)) ∧
    binary_attempts (fun _ => 408) 1 5 =
      ([.nonceReq, .binaryInfoReq] ++ (binary_attempts (fun _ => 408) 2 4).1,
       (binary_attempts (fun _ => 408) 2 4).2) ∧
    (binary_attempts (fun _ => 408) 2 4).1 ≠ [] :=
  ⟨(spec_c5_status_dispatch (fun _ => 200) 1 4).1 rfl,
   (spec_c5_status_dispatch (fun _ => 401) 1 4).2.2.1 rfl,
   (spec_c5_status_dispatch (fun _ => 500) 1 4).2.2.2
     (by decide) (by decide) (by decide),
   ((spec_c5_status_dispatch (fun _ => 408) 1 4).2.1 rfl).1,
   ((spec_c5_status_dispatch (fun _ => 408) 1 4).2.1 rfl).2 (by decide)⟩

/-! ### Claim theorems: download range validation (C1) -/

/-- Counterexample for C1: with decryption enabled and a bounded non-zero
end offset the route does fail with the range error, but at that point the
request trace already contains the nonce request (and the file-registration
request) — the validation is *not* performed before any network call. -/
theorem spec_c1_counterexample :
    (download_binary true (some "bytes=0-100") ⟨200, 200, 200⟩).2 =
      .error (.rangeHeaderInvalid 416) ∧
    Ev.nonceReq ∈ (download_binary true (some "bytes=0-100") ⟨200, 200, 200⟩).1 ∧
    Ev.fileRegReq ∈ (download_binary true (some "bytes=0-100") ⟨200, 200, 200⟩).1 := by
  refine ⟨by decide, by decide, by decide⟩

/-- Claim C1 (amended): with decryption enabled, whenever the Range header
parses with a non-zero end offset and the file-registration exchange
succeeded (HTTP 200 with FUS status 200), the route fails with
`RANGE_HEADER_INVALID` (416).  The validation happens after the nonce and
file-registration requests but before the ranged download request: the
trace is exactly `[nonceReq, fileRegReq]`. -/
theorem spec_c1_decrypt_range_validation (rh : String) (env : DownloadEnv)
    (s e : Int) (hreg : env.regHttp = 200) (hkies : env.regKies = 200)
    (hparse : parse_range_header rh = .ok (s, e)) (he : e ≠ 0) :
    download_binary true (some rh) env =
      ([.nonceReq, .fileRegReq], .error (.rangeHeaderInvalid 416)) := by
  have hinv : range_invalid true s e = true := by
    have hne : (e == 0) = false := by
      simpa using he
    simp [range_invalid, hne]
  simp [download_binary, hreg, hkies, hparse, hinv]

/-- Witness for C1 (amended) at a concrete bounded decrypt request. -/
theorem spec_c1_witness :
    download_binary true (some "bytes=0-100") ⟨200, 200, 200⟩ =
      ([.nonceReq, .fileRegReq], .error (.rangeHeaderInvalid 416)) :=
  spec_c1_decrypt_range_validation "bytes=0-100" ⟨200, 200, 200⟩ 0 100
    rfl rfl (by decide) (by decide)

/-! ### Claim theorems: build-info decoding (C6) -/

/-- Claim C6: build-info decoding is a deterministic pure function of the
first component's last 6 characters; a leading class character `'U'`/`'S'`
selects the prefix branch yielding the 2-letter class code, `char3 - 'A'`,
`char4 - 'R' + 2018`, `char5 - 'A'` and `char6`'s index in `0-9A-Z`; any
other leading character selects the suffix branch decoding only the last 3
characters with the same arithmetic (no class code, no index). -/
theorem spec_c6_build_info_decoding :
    (∀ f g : String, f.data.count '/' = 3 → g.data.count '/' = 3 →
      lastN 6 ((pySplit '/' f.data).headD []) =
        lastN 6 ((pySplit '/' g.data).headD []) →
      read_firmware f = read_firmware g) ∧
    (∀ (c1 c2 c3 c4 c5 c6 : Char) (r : Nat), (c1 = 'U' ∨ c1 = 'S') →
      ALPHANUM.findIdx? (· == c6) = some r →
      decode_pda [c1, c2, c3, c4, c5, c6] =
        .ok ⟨some ⟨[c1, c2]⟩, some ((c3.toNat : Int) - ('A'.toNat : Int)),
             ((c4.toNat : Int) - ('R'.toNat : Int)) + 2018,
             (c5.toNat : Int) - ('A'.toNat : Int), (r : Int)⟩) ∧
    (∀ (c1 c2 c3 c4 c5 c6 : Char) (r : Nat), ¬ c1 = 'U' → ¬ c1 = 'S' →
      ALPHANUM.findIdx? (· == c6) = some r →
      decode_pda [c1, c2, c3, c4, c5, c6] =
        .ok ⟨none, none, ((c4.toNat : Int) - ('R'.toNat : Int)) + 2018,
             (c5.toNat : Int) - ('A'.toNat : Int), (r : Int)⟩) := by
  refine ⟨?_, ?_, ?_⟩
  · intro f g hf hg heq
    simp only [read_firmware, if_pos hf, if_pos hg, heq]
  · intro c1 c2 c3 c4 c5 c6 r hus hidx
    simp [decode_pda, pyIndexAt, hus, pyStrIndex, hidx]
  · intro c1 c2 c3 c4 c5 c6 r hu hs hidx
    simp [decode_pda, pyIndexAt, pyIndexNeg, hu, hs, pyStrIndex, hidx]

/-- Witness for C6: two firmware strings sharing the PDA code `U1AUA1`
decode identically, and both decode branches evaluated at concrete
6-character codes. -/
theorem spec_c6_witness :
    read_firmware "A0XXU1AUA1/B/C/D" = read_firmware "Z9XXU1AUA1/E/F/G" ∧
    decode_pda ['U', 'X', 'A', 'S', 'C', 'D'] =
      .ok ⟨some "UX", some (('A'.toNat : Int) - ('A'.toNat : Int)),
           (('S'.toNat : Int) - ('R'.toNat : Int)) + 2018,
           ('C'.toNat : Int) - ('A'.toNat : Int), (13 : Nat)⟩ ∧
    decode_pda ['X', 'X', 'A', 'S', 'C', 'D'] =
      .ok ⟨none, none, (('S'.toNat : Int) - ('R'.toNat : Int)) + 2018,
           ('C'.toNat : Int) - ('A'.toNat : Int), (13 : Nat)⟩ :=
  ⟨spec_c6_build_info_decoding.1 _ _ (by decide) (by decide) (by decide),
   spec_c6_build_info_decoding.2.1 'U' 'X' 'A' 'S' 'C' 'D' 13
     (Or.inl rfl) (by decide),
   spec_c6_build_info_decoding.2.2 'X' 'X' 'A' 'S' 'C' 'D' 13
     (by decide) (by decide) (by decide)⟩

/-! ### Claim theorems: firmware list ordering and filtering (C7) -/

theorem mapE_forall₂ {α β ε : Type} {f : α → Except ε β} :
    ∀ {l : List α} {rs : List β}, mapE f l = .ok rs →
      List.Forall₂ (fun a b => f a = .ok b) l rs := by
  intro l
  induction l with
  | nil =>
    intro rs h
    simp only [mapE] at h
    rw [← Except.ok.inj h]
    exact List.Forall₂.nil
  | cons a l ih =>
    intro rs h
    simp only [mapE] at h
    cases hfa : f a with
    | error e => rw [hfa] at h; simp at h
    | ok b =>
      rw [hfa] at h
      cases hml : mapE f l with
      | error e => rw [hml] at h; simp at h
      | ok bs =>
        rw [hml] at h
        rw [← Except.ok.inj h]
        exact List.Forall₂.cons hfa (ih hml)

theorem forall₂_map_eq {α β γ : Type} {R : α → β → Prop} {g : β → γ}
    {f : α → γ} (hc : ∀ a b, R a b → g b = f a) :
    ∀ {l₁ : List α} {l₂ : List β}, List.Forall₂ R l₁ l₂ →
      l₂.map g = l₁.map f := by
  intro l₁ l₂ hf
  induction hf with
  | nil => rfl
  | cons hr _ ih => simp [ih, hc _ _ hr]

theorem enumFrom_isZero_map {α : Type} (l : List α) :
    ∀ n : Nat, (List.enumFrom (n + 1) l).map (fun p => p.1 == 0) =
      List.replicate l.length false := by
  induction l with
  | nil => intro n; rfl
  | cons a l ih =>
    intro n
    simp [List.enumFrom, List.replicate_succ, ih (n + 1)]

theorem entryRel_fields {p : Nat × String} {e : FirmwareEntry}
    (h : (read_firmware_dict p.2).map
        (fun d => FirmwareEntry.mk p.2 (p.1 == 0) d) = .ok e) :
    e.firmware = p.2 ∧ e.is_latest = (p.1 == 0) := by
  cases hr : read_firmware_dict p.2 with
  | error ex => rw [hr] at h; simp [Except.map] at h
  | ok d =>
    rw [hr] at h
    simp only [Except.map] at h
    rw [← Except.ok.inj h]
    exact ⟨rfl, rfl⟩

theorem alternateF_filter {m : Manifest} {alts : List String}
    (h : alternateF m = .ok alts) :
    List.Forall₂ (fun t r => parse_firmware t = .ok r)
      ((rawUpgrades m).filter (fun t => 1 < t.data.count '/')) alts := by
  unfold alternateF at h
  split at h
  · simp at h
  · cases hu : m.upgrade with
    | missingKey => rw [hu] at h; simp at h
    | null =>
      rw [hu] at h
      rw [← Except.ok.inj h]
      simp [rawUpgrades, hu]
    | multi ts =>
      rw [hu] at h
      simpa [rawUpgrades, hu] using mapE_forall₂ h
    | single t =>
      rw [hu] at h
      have h2 : (if 1 < t.data.count '/'
          then Except.map (fun r => [r]) (parse_firmware t)
          else Except.ok ([] : List String)) = Except.ok alts := h
      by_cases hc : 1 < t.data.count '/'
      · rw [if_pos hc] at h2
        cases hp : parse_firmware t with
        | error e => rw [hp] at h2; simp [Except.map] at h2
        | ok r =>
          rw [hp] at h2
          simp only [Except.map] at h2
          rw [← Except.ok.inj h2]
          have hfil : (rawUpgrades m).filter (fun t => 1 < t.data.count '/') = [t] := by
            simp [rawUpgrades, hu, List.filter_cons, hc]
          rw [hfil]
          exact List.Forall₂.cons hp List.Forall₂.nil
      · rw [if_neg hc] at h2
        rw [← Except.ok.inj h2]
        have hfil : (rawUpgrades m).filter (fun t => 1 < t.data.count '/') = [] := by
          simp [rawUpgrades, hu, List.filter_cons, hc]
        rw [hfil]
        exact List.Forall₂.nil

/-- Claim C7: whenever the list route succeeds, the returned entries are the
parsed latest entry first and then the alternates in manifest order; only
the first entry carries the `is_latest` tag; and the alternates correspond,
in order, to exactly those raw upgrade entries with at least two `'/'`
separators (the rest are filtered out). -/
theorem spec_c7_list_ordering (hs : Nat) (m : Manifest)
    (entries : List FirmwareEntry)
    (h : get_firmware_list hs m = .ok entries) :
    ∃ lat alts, latestF m = .ok (some lat) ∧ alternateF m = .ok alts ∧
      entries.map FirmwareEntry.firmware = lat :: alts ∧
      entries.map FirmwareEntry.is_latest =
        true :: List.replicate alts.length false ∧
      List.Forall₂ (fun t r => parse_firmware t = .ok r)
        ((rawUpgrades m).filter (fun t => 1 < t.data.count '/')) alts := by
  unfold get_firmware_list at h
  by_cases h1 : hs ≠ 200
  · rw [if_pos h1] at h
    exact absurd h (by simp)
  rw [if_neg h1] at h
  by_cases h2 : ¬ m.hasVersions
  · rw [if_pos h2] at h
    exact absurd h (by simp)
  rw [if_neg h2] at h
  cases hlat : latestF m with
  | error e => rw [hlat] at h; simp at h
  | ok olat =>
    rw [hlat] at h
    cases olat with
    | none => simp at h
    | some lat =>
      have h3 : (match alternateF m with
          | .error e => Except.error (RouteError.pyExc e)
          | .ok alts =>
            match mapE (fun p => (read_firmware_dict p.2).map
                (fun d => FirmwareEntry.mk p.2 (p.1 == 0) d)) ((lat :: alts).enum) with
            | .error e => Except.error (RouteError.pyExc e)
            | .ok es => Except.ok es) = Except.ok entries := h
      cases halts : alternateF m with
      | error e => rw [halts] at h3; simp at h3
      | ok alts =>
        rw [halts] at h3
        have h4 : (match mapE (fun p => (read_firmware_dict p.2).map
            (fun d => FirmwareEntry.mk p.2 (p.1 == 0) d)) ((lat :: alts).enum) with
          | .error e => Except.error (RouteError.pyExc e)
          | .ok es => Except.ok es) = Except.ok entries := h3
        cases hmap : mapE (fun p => (read_firmware_dict p.2).map
            (fun d => FirmwareEntry.mk p.2 (p.1 == 0) d)) ((lat :: alts).enum) with
        | error e => rw [hmap] at h4; simp at h4
        | ok es =>
          rw [hmap] at h4
          have hent : es = entries := Except.ok.inj h4
          subst hent
          have hf := mapE_forall₂ hmap
          refine ⟨lat, alts, rfl, rfl, ?_, ?_, alternateF_filter halts⟩
          · have hmapeq := forall₂_map_eq
              (g := FirmwareEntry.firmware) (f := Prod.snd)
              (fun p e hr => (entryRel_fields hr).1) hf
            rw [hmapeq, List.enum_map_snd]
          · have hmapeq := forall₂_map_eq
              (g := FirmwareEntry.is_latest) (f := fun p => p.1 == 0)
              (fun p e hr => (entryRel_fields hr).2) hf
            rw [hmapeq]
            rw [show (lat :: alts).enum = (0, lat) :: List.enumFrom 1 alts from rfl]
            simp only [List.map_cons]
            rw [enumFrom_isZero_map alts 0]
            rfl

/-- Witness for C7 at a concrete manifest with one kept and one filtered
alternate. -/
theorem spec_c7_witness :
    ∃ lat alts,
      latestF ⟨true, .text "A0XXU1AUA1/B/C/D",
        .multi ["B0XXU1AUA1/C/D", "X/Y"]⟩ = .ok (some lat) ∧
      alternateF ⟨true, .text "A0XXU1AUA1/B/C/D",
        .multi ["B0XXU1AUA1/C/D", "X/Y"]⟩ = .ok alts ∧
      List.map FirmwareEntry.firmware
        [⟨"A0XXU1AUA1/B/C/D", true, ⟨some "U1", "2021.0", "0.1"⟩⟩,
         ⟨"B0XXU1AUA1/C/D/B0XXU1AUA1", false, ⟨some "U1", "2021.0", "0.1"⟩⟩] =
        lat :: alts ∧
      List.map FirmwareEntry.is_latest
        [⟨"A0XXU1AUA1/B/C/D", true, ⟨some "U1", "2021.0", "0.1"⟩⟩,
         ⟨"B0XXU1AUA1/C/D/B0XXU1AUA1", false, ⟨some "U1", "2021.0", "0.1"⟩⟩] =
        true :: List.replicate alts.length false ∧
      List.Forall₂ (fun t r => parse_firmware t = .ok r)
        ((rawUpgrades ⟨true, .text "A0XXU1AUA1/B/C/D",
          .multi ["B0XXU1AUA1/C/D", "X/Y"]⟩).filter
            (fun t => 1 < t.data.count '/')) alts :=
  spec_c7_list_ordering 200
    ⟨true, .text "A0XXU1AUA1/B/C/D", .multi ["B0XXU1AUA1/C/D", "X/Y"]⟩
    [⟨"A0XXU1AUA1/B/C/D", true, ⟨some "U1", "2021.0", "0.1"⟩⟩,
     ⟨"B0XXU1AUA1/C/D/B0XXU1AUA1", false, ⟨some "U1", "2021.0", "0.1"⟩⟩]
    (by decide)

